import Mathlib

/-!
Shallow embedding of the grpc-guardian middleware library (Go) and proofs
of the specification claims about it.

Source files embedded here:
  * `guardian.go`            — middleware chain composition
  * `middleware/retry.go`    — retry engine (options, backoff, interceptor loop)
  * `middleware/timeout.go`  — deadline enforcer and circuit breaker
  * `middleware/ratelimit.go`— adaptive rate limiter
  * `pkg/cache` key generator — content-addressed cache keys (SHA-256)

Durations are modelled as integers (nanoseconds, like Go's `time.Duration`);
Go `float64` arithmetic is idealised as exact rational arithmetic over `ℚ`.
-/

namespace Guardian

/-- gRPC status codes (google.golang.org/grpc/codes). -/
inductive Code where
  | ok
  | canceled
  | unknown
  | invalidArgument
  | deadlineExceeded
  | notFound
  | alreadyExists
  | permissionDenied
  | resourceExhausted
  | failedPrecondition
  | aborted
  | outOfRange
  | unimplemented
  | internal
  | unavailable
  | dataLoss
  | unauthenticated
  deriving DecidableEq, Repr

/-- A Go `error` value as observed by this library: either a gRPC status
error carrying a code and message, or a plain (non-status) error carrying
only a message.  `status.FromError` succeeds exactly on the first form. -/
inductive GoErr where
  | statusE (code : Code) (msg : String)
  | plainE (msg : String)
  deriving DecidableEq, Repr

/-- The status code of an error, when `status.FromError` succeeds. -/
def GoErr.statusCode : GoErr → Option Code
  | .statusE c _ => some c
  | .plainE _ => none

/-! ## Middleware chain (`guardian.go`)

A unary handler takes (context, request) and returns (response, error);
a middleware additionally receives the server info and the next handler.
We keep context, request, server info and result abstract. -/

/-- A unary handler: `func(ctx, req) (interface{}, error)`. -/
def Handler (γ ρ α : Type) : Type := γ → ρ → α

/-- A unary middleware / interceptor:
`func(ctx, req, info, handler) (interface{}, error)`. -/
def Middleware (γ ρ ι α : Type) : Type := γ → ρ → ι → Handler γ ρ α → α

/-- One wrapping step of the loop body in `Chain.UnaryInterceptor`
(`guardian.go` lines 49–57): capture the middleware and the current
handler in a new handler closure. -/
def wrapStep {γ ρ ι α : Type} (info : ι) (next : Handler γ ρ α)
    (m : Middleware γ ρ ι α) : Handler γ ρ α :=
  fun ctx req => m ctx req info next

/-- `Chain.UnaryInterceptor` / `ChainUnaryServer` (`guardian.go`):
starting from the final handler, iterate `i` from `len(middlewares)-1`
down to `0`, wrapping the current handler with `middlewares[i]`; then
invoke the resulting handler on the incoming context and request.
Iterating indices in descending order is folding over the reversed list. -/
def chainUnaryServer {γ ρ ι α : Type} (middlewares : List (Middleware γ ρ ι α))
    (ctx : γ) (req : ρ) (info : ι) (handler : Handler γ ρ α) : α :=
  let currentHandler := middlewares.reverse.foldl (fun acc m => wrapStep info acc m) handler
  currentHandler ctx req

/-- Modelled from the spec's composition contract (§4.1):
`Compose(m₁, …, mₙ, h) = m₁(_, _, _, m₂(… mₙ(_, _, _, h) …))` — the
nested, first-listed-outermost composition of a chain. -/
def composeSpec {γ ρ ι α : Type} (info : ι) :
    List (Middleware γ ρ ι α) → Handler γ ρ α → Handler γ ρ α
  | [], h => h
  | m :: ms, h => fun ctx req => m ctx req info (composeSpec info ms h)

/-! ## Retry engine (`middleware/retry.go`)

Durations are `time.Duration` values, i.e. signed integer nanosecond
counts; the backoff computation happens in `float64`, idealised here as
exact rational arithmetic.  The `onRetry` callback has no effect on the
control flow or result and is omitted. -/

/-- The `Retry` configuration struct (`retry.go` lines 15–23).
The `retryableErrors` map `map[codes.Code]bool` is modelled as the list
of codes mapped to `true`; map lookup of an absent key is `false`. -/
structure Retry where
  maxAttempts : ℤ
  initialBackoff : ℤ
  maxBackoff : ℤ
  backoffMultiplier : ℚ
  jitter : Bool
  retryableErrors : List Code
  deriving Repr

/-- The functional options of `retry.go` (lines 30–92), as data. -/
inductive RetryOption where
  | withMaxAttempts (n : ℤ)
  | withInitialBackoff (d : ℤ)
  | withMaxBackoff (d : ℤ)
  | withBackoffMultiplier (m : ℚ)
  | withJitter (enabled : Bool)
  | withRetryableCodes (cs : List Code)
  deriving Repr

/-- Application of one functional option to the configuration under
construction, exactly as the option closures guard their values:
`WithMaxAttempts` requires `n > 0`, the backoff durations require `d > 0`,
`WithBackoffMultiplier` requires `m > 1.0`; a failed guard leaves the
configuration unchanged.  `WithRetryableCodes` replaces the whole map. -/
def RetryOption.apply (r : Retry) : RetryOption → Retry
  | .withMaxAttempts n => if 0 < n then { r with maxAttempts := n } else r
  | .withInitialBackoff d => if 0 < d then { r with initialBackoff := d } else r
  | .withMaxBackoff d => if 0 < d then { r with maxBackoff := d } else r
  | .withBackoffMultiplier m => if 1 < m then { r with backoffMultiplier := m } else r
  | .withJitter enabled => { r with jitter := enabled }
  | .withRetryableCodes cs => { r with retryableErrors := cs }

/-- The default retryable code set installed by `NewRetry`
(`retry.go` lines 102–107). -/
def defaultRetryableCodes : List Code :=
  [.unavailable, .resourceExhausted, .aborted, .deadlineExceeded]

/-- `NewRetry` (`retry.go` lines 95–115): start from the defaults
(3 attempts, 100 ms, 10 s, multiplier 2.0, jitter on, default codes)
and apply the options in order. -/
def newRetry (opts : List RetryOption) : Retry :=
  opts.foldl RetryOption.apply
    { maxAttempts := 3
      initialBackoff := 100 * 1000000
      maxBackoff := 10 * 1000000000
      backoffMultiplier := 2
      jitter := true
      retryableErrors := defaultRetryableCodes }

/-- `Retry.isRetryable` (`retry.go` lines 292–300): a non-status error is
never retried; a status error is retried iff its code is in the map. -/
def Retry.isRetryable (r : Retry) (err : GoErr) : Bool :=
  match err.statusCode with
  | none => false
  | some c => r.retryableErrors.contains c

/-- Go's `float64 → int64` conversion truncates toward zero. -/
def truncQ (q : ℚ) : ℤ :=
  if q < 0 then -(⌊-q⌋) else ⌊q⌋

/-- The `float64` value computed by `Retry.calculateBackoff`
(`retry.go` lines 304–318) before the final `time.Duration` conversion:
`initialBackoff · multiplier^(attempt−1)`, capped at `maxBackoff`, then
multiplied by a uniform sample `rand ∈ [0,1)` when jitter is enabled. -/
def Retry.calculateBackoffF (r : Retry) (rand : ℚ) (attempt : ℕ) : ℚ :=
  let backoff : ℚ := (r.initialBackoff : ℚ) * r.backoffMultiplier ^ (attempt - 1)
  let backoff : ℚ := if backoff > (r.maxBackoff : ℚ) then (r.maxBackoff : ℚ) else backoff
  if r.jitter then rand * backoff else backoff

/-- `Retry.calculateBackoff`: the returned `time.Duration`. -/
def Retry.calculateBackoff (r : Retry) (rand : ℚ) (attempt : ℕ) : ℤ :=
  truncQ (r.calculateBackoffF rand attempt)

/-- The observable outcome of one run of the retry interceptor: the
returned `(resp, error)` pair and how many times the handler ran. -/
structure RetryOut (α : Type) where
  resp : Option α
  err : Option GoErr
  calls : ℕ
  deriving Repr, DecidableEq

/-- The loop body of `Retry.UnaryServerInterceptor` (`retry.go` lines
188–227).  `h a` is the `(resp, error)` pair the handler returns on
attempt `a`; `cB a` is the value of `ctx.Err()` observed at the top of
attempt `a` (`none` = not cancelled); `cS a` is the cancellation
observed while sleeping after attempt `a` (`none` = the sleep ran to
completion).  `fuel` counts the loop iterations still permitted by the
loop condition `attempt ≤ maxAttempts`; `resp`/`lastErr` are the mutable
locals carried across iterations. -/
def retryAux {α : Type} (r : Retry) (h : ℕ → Option α × Option GoErr)
    (cB cS : ℕ → Option GoErr) :
    (attempt : ℕ) → (fuel : ℕ) → Option α → Option GoErr → RetryOut α
  | _, 0, resp, lastErr => ⟨resp, lastErr, 0⟩
  | attempt, fuel + 1, _, _ =>
    match cB attempt with
    | some ce => ⟨none, some ce, 0⟩
    | none =>
      match h attempt with
      | (resp', none) => ⟨resp', none, 1⟩
      | (resp', some e) =>
        if r.isRetryable e = false then ⟨resp', some e, 1⟩
        else if r.maxAttempts ≤ (attempt : ℤ) then ⟨resp', some e, 1⟩
        else
          match cS attempt with
          | some ce => ⟨none, some ce, 1⟩
          | none =>
            let out := retryAux r h cB cS (attempt + 1) fuel resp' (some e)
            ⟨out.resp, out.err, out.calls + 1⟩

/-- One full run of the unary server retry interceptor: attempts start
at 1 and the loop admits at most `maxAttempts` iterations (none when
`maxAttempts < 1`, in which case Go returns the zero-valued locals). -/
def retryRun {α : Type} (r : Retry) (h : ℕ → Option α × Option GoErr)
    (cB cS : ℕ → Option GoErr) : RetryOut α :=
  retryAux r h cB cS 1 r.maxAttempts.toNat none none


/-! ## Circuit breaker (`middleware/timeout.go`, second half)

Time is an integer nanosecond clock (`time.Time` differences are
`time.Duration`s).  The `onStateChange` callback observes transitions but
has no effect on the breaker's state or results, and is omitted.  The
mutex serialises operations, so each operation is a function from breaker
state to breaker state. -/

/-- The three circuit breaker states. -/
inductive BState where
  | closed
  | opened
  | halfOpen
  deriving DecidableEq, Repr

/-- `Counts` (`timeout.go` lines 220–226). -/
structure Counts where
  requests : ℕ
  totalSuccesses : ℕ
  totalFailures : ℕ
  consecutiveSuccesses : ℕ
  consecutiveFailures : ℕ
  deriving DecidableEq, Repr

/-- The two sentinel errors `ErrCircuitOpen` / `ErrTooManyRequests`. -/
inductive CBErr where
  | circuitOpen
  | tooManyRequests
  deriving DecidableEq, Repr

/-- The `errors.New` message carried by each sentinel error. -/
def CBErr.message : CBErr → String
  | .circuitOpen => "circuit breaker is open"
  | .tooManyRequests => "too many requests"

/-- The `CircuitBreaker` struct (`timeout.go` lines 195–217). -/
structure CircuitBreaker where
  maxRequests : ℕ
  interval : ℤ
  timeout : ℤ
  failureThreshold : ℚ
  successThreshold : ℕ
  state : BState
  generation : ℕ
  stateChangedAt : ℤ
  counts : Counts
  halfOpenRequests : ℕ
  isFailure : Option GoErr → Bool

/-- `defaultIsFailure` (`timeout.go` lines 304–324): `nil` is no failure;
a non-status error is a failure; a status error is a failure iff its code
is Internal, Unavailable, DataLoss or DeadlineExceeded. -/
def defaultIsFailure : Option GoErr → Bool
  | none => false
  | some (.plainE _) => true
  | some (.statusE c _) =>
      c == .internal || c == .unavailable || c == .dataLoss || c == .deadlineExceeded

/-- `NewCircuitBreaker` with no options (`timeout.go` lines 283–301):
1 half-open request, 60 s interval and timeout, threshold 0.6,
success threshold 1, Closed, zero counters, `stateChangedAt = now`. -/
def newCircuitBreaker (now : ℤ) : CircuitBreaker :=
  { maxRequests := 1
    interval := 60 * 1000000000
    timeout := 60 * 1000000000
    failureThreshold := 3 / 5
    successThreshold := 1
    state := .closed
    generation := 0
    stateChangedAt := now
    counts := ⟨0, 0, 0, 0, 0⟩
    halfOpenRequests := 0
    isFailure := defaultIsFailure }

/-- `resetCounts` (`timeout.go` lines 465–467). -/
def resetCounts (cb : CircuitBreaker) : CircuitBreaker :=
  { cb with counts := ⟨0, 0, 0, 0, 0⟩ }

/-- `setState` (`timeout.go` lines 441–462): no-op when the state is
unchanged; otherwise install the new state, capture the timestamp, bump
the generation, reset the counters, and zero the probe counter when
entering HalfOpen. -/
def setState (cb : CircuitBreaker) (newState : BState) (now : ℤ) : CircuitBreaker :=
  if cb.state = newState then cb
  else
    let cb' := resetCounts
      { cb with state := newState, stateChangedAt := now, generation := cb.generation + 1 }
    if newState = .halfOpen then { cb' with halfOpenRequests := 0 } else cb'

/-- `currentState` (`timeout.go` lines 412–427): while Closed, an elapsed
interval (`interval > 0 && now − stateChangedAt > interval`) resets the
counters; while Open, an elapsed timeout (`now − stateChangedAt ≥
timeout`) transitions to HalfOpen.  Returns the updated breaker together
with its state and generation. -/
def currentState (cb : CircuitBreaker) (now : ℤ) : CircuitBreaker × BState × ℕ :=
  let cb' :=
    match cb.state with
    | .closed =>
        if 0 < cb.interval ∧ cb.interval < now - cb.stateChangedAt then resetCounts cb else cb
    | .opened =>
        if cb.timeout ≤ now - cb.stateChangedAt then setState cb .halfOpen now else cb
    | .halfOpen => cb
  (cb', cb'.state, cb'.generation)

/-- `shouldOpen` (`timeout.go` lines 430–438): below 10 requests never
open; otherwise open iff `failures / requests ≥ failureThreshold`
(float division idealised over `ℚ`). -/
def shouldOpen (cb : CircuitBreaker) : Bool :=
  if cb.counts.requests < 10 then false
  else cb.failureThreshold ≤ (cb.counts.totalFailures : ℚ) / (cb.counts.requests : ℚ)

/-- `beforeRequest` (`timeout.go` lines 348–368): refresh the state; Open
rejects with `ErrCircuitOpen`; HalfOpen at the probe limit rejects with
`ErrTooManyRequests`; otherwise count the admission (and the probe, in
HalfOpen) and hand out the current generation. -/
def beforeRequest (cb₀ : CircuitBreaker) (now : ℤ) : CircuitBreaker × ℕ × Option CBErr :=
  let cb := (currentState cb₀ now).1
  let state := (currentState cb₀ now).2.1
  let generation := (currentState cb₀ now).2.2
  if state = .opened then (cb, generation, some .circuitOpen)
  else if state = .halfOpen ∧ cb.maxRequests ≤ cb.halfOpenRequests then
    (cb, generation, some .tooManyRequests)
  else
    let cb' := if state = .halfOpen
      then { cb with halfOpenRequests := cb.halfOpenRequests + 1 } else cb
    ({ cb' with counts := { cb'.counts with requests := cb'.counts.requests + 1 } },
      generation, none)

/-- The failure bookkeeping of `afterRequest` (`timeout.go` lines
384–386): failures and the failure streak grow, the success streak
resets. -/
def recordFailure (cb : CircuitBreaker) : CircuitBreaker :=
  { cb with counts := { cb.counts with
      totalFailures := cb.counts.totalFailures + 1
      consecutiveFailures := cb.counts.consecutiveFailures + 1
      consecutiveSuccesses := 0 } }

/-- The success bookkeeping of `afterRequest` (`timeout.go` lines
398–400): successes and the success streak grow, the failure streak
resets. -/
def recordSuccess (cb : CircuitBreaker) : CircuitBreaker :=
  { cb with counts := { cb.counts with
      totalSuccesses := cb.counts.totalSuccesses + 1
      consecutiveSuccesses := cb.counts.consecutiveSuccesses + 1
      consecutiveFailures := 0 } }

/-- `afterRequest` (`timeout.go` lines 371–409): refresh the state; drop
the sample when its generation is stale; otherwise record the outcome and
apply the outcome-driven transitions (failure in HalfOpen → Open; failure
in Closed with `shouldOpen` → Open; success streak in HalfOpen reaching
`successThreshold` → Closed). -/
def afterRequest (cb₀ : CircuitBreaker) (now : ℤ) (generation : ℕ)
    (err : Option GoErr) : CircuitBreaker :=
  let cb := (currentState cb₀ now).1
  let state := (currentState cb₀ now).2.1
  let currentGeneration := (currentState cb₀ now).2.2
  if generation ≠ currentGeneration then cb
  else if cb.isFailure err then
    if state = .halfOpen then setState (recordFailure cb) .opened now
    else if state = .closed ∧ shouldOpen (recordFailure cb) = true then
      setState (recordFailure cb) .opened now
    else recordFailure cb
  else
    if state = .halfOpen ∧ (recordSuccess cb).successThreshold
        ≤ (recordSuccess cb).counts.consecutiveSuccesses then
      setState (recordSuccess cb) .closed now
    else recordSuccess cb

/-- The observable outcome of one pass through a middleware: the returned
`(resp, error)` pair and whether the wrapped handler was invoked. -/
structure MwResult (α : Type) where
  resp : Option α
  err : Option GoErr
  handlerInvoked : Bool
  deriving Repr, DecidableEq

/-- `CircuitBreakerMiddleware`'s per-call closure (`timeout.go` lines
330–344): admit via `beforeRequest` at time `now₁`; a rejection becomes a
gRPC `Unavailable` error with message `"circuit breaker: <err>"` and the
handler is not called; otherwise run the handler, record its outcome at
time `now₂`, and return the handler's result verbatim. -/
def circuitBreakerMiddleware {α : Type} (cb : CircuitBreaker) (now₁ now₂ : ℤ)
    (handler : Unit → Option α × Option GoErr) : CircuitBreaker × MwResult α :=
  match beforeRequest cb now₁ with
  | (cb₁, _, some e) =>
      (cb₁, ⟨none, some (.statusE .unavailable ("circuit breaker: " ++ e.message)), false⟩)
  | (cb₁, generation, none) =>
      let hr := handler ()
      (afterRequest cb₁ now₂ generation hr.2, ⟨hr.1, hr.2, true⟩)

/-! ### Generation-tagged accounting protocol

To reason about the per-generation accounting invariant we track, next to
the breaker, how many admissions of the *current* generation are still in
flight (`pending`): `beforeRequest` hands out a token carrying the
returned generation, and each completed call feeds exactly one token back
through `afterRequest`.  A generation bump orphans all outstanding tokens
(they become stale and are dropped on completion). -/

/-- A breaker together with the number of in-flight admissions carrying
the current generation. -/
structure SysState where
  cb : CircuitBreaker
  pending : ℕ

/-- The interval-based count reset while Closed does not fire at `now`
(`timeout.go` line 416).  This reset clears the counters without bumping
the generation, which is exactly the case that breaks per-generation
accounting. -/
def noIntervalReset (cb : CircuitBreaker) (now : ℤ) : Prop :=
  ¬(cb.state = .closed ∧ 0 < cb.interval ∧ cb.interval < now - cb.stateChangedAt)

/-- One admission: run `beforeRequest`; if the generation survived, keep
the old tokens, else they are orphaned; a successful admission adds one
token (carrying the post-call generation). -/
def stepBefore (s : SysState) (now : ℤ) : SysState :=
  ⟨(beforeRequest s.cb now).1,
    (if (beforeRequest s.cb now).1.generation = s.cb.generation then s.pending else 0)
      + (if (beforeRequest s.cb now).2.2 = none then 1 else 0)⟩

/-- One completion with a token tagged `g`: run `afterRequest`; if the
generation survived, the tokens of the current generation persist (minus
the consumed one when it was current), else they are orphaned. -/
def stepAfter (s : SysState) (now : ℤ) (g : ℕ) (err : Option GoErr) : SysState :=
  ⟨afterRequest s.cb now g err,
    if (afterRequest s.cb now g err).generation = s.cb.generation then
      s.pending - (if g = s.cb.generation then 1 else 0)
    else 0⟩

/-- States reachable by any interleaving of matched `beforeRequest` /
`afterRequest` calls in which the Closed-state interval reset never
fires: completions carry either a live token of the current generation
(of which `pending` are outstanding) or a stale token from a previous
generation. -/
inductive Reach : SysState → Prop where
  | init (now : ℤ) : Reach ⟨newCircuitBreaker now, 0⟩
  | before (s : SysState) (now : ℤ) (hr : Reach s) (hnr : noIntervalReset s.cb now) :
      Reach (stepBefore s now)
  | afterTok (s : SysState) (now : ℤ) (err : Option GoErr) (hr : Reach s)
      (hnr : noIntervalReset s.cb now) (hp : 1 ≤ s.pending) :
      Reach (stepAfter s now s.cb.generation err)
  | afterStale (s : SysState) (now : ℤ) (g : ℕ) (err : Option GoErr) (hr : Reach s)
      (hnr : noIntervalReset s.cb now) (hg : g ≠ s.cb.generation)
      (hg' : g ≠ (currentState s.cb now).2.2) :
      Reach (stepAfter s now g err)


/-! ## Deadline enforcer (`middleware/timeout.go`, first half)

The middleware derives a context with deadline `now + T` (`T` the default
or per-method timeout), runs the handler in a goroutine, and `select`s on
the handler's result channel versus `ctx.Done()`.  We model one run by
which event wins the race; `ctx.Done()` can fire either because the
derived deadline expired or because an ancestor context was explicitly
cancelled.  The `OnTimeout` callback observes expiry only and is
omitted. -/

/-- `TimeoutConfig` (`timeout.go` lines 13–18): the default timeout and
the per-method override table. -/
structure TimeoutConfig where
  timeout : ℤ
  perMethod : List (String × ℤ)

/-- The timeout resolved for a method (`timeout.go` lines 60–63):
the per-method entry when present, else the default. -/
def TimeoutConfig.resolve (cfg : TimeoutConfig) (method : String) : ℤ :=
  match cfg.perMethod.lookup method with
  | some t => t
  | none => cfg.timeout

/-- Why the derived context's `Done` channel fired. -/
inductive DoneCause where
  | deadlineExpired
  | parentCanceled
  deriving DecidableEq, Repr

/-- Which event the `select` at `timeout.go` lines 83–92 observes
first. -/
inductive RaceOutcome (α : Type) where
  | handlerFirst (resp : Option α) (err : Option GoErr)
  | ctxDoneFirst (cause : DoneCause)
  deriving DecidableEq, Repr

/-- One run of the `Timeout` middleware closure (`timeout.go` lines
58–93): a handler result that wins the race is returned verbatim; when
`ctx.Done()` wins — for whatever cause — the middleware returns `nil`
and a `DeadlineExceeded` status error `"request timeout after <T>"`. -/
def timeoutRun {α : Type} (cfg : TimeoutConfig) (method : String)
    (outcome : RaceOutcome α) : Option α × Option GoErr :=
  match outcome with
  | .handlerFirst resp err => (resp, err)
  | .ctxDoneFirst _ =>
      (none, some (.statusE .deadlineExceeded
        ("request timeout after " ++ toString (cfg.resolve method))))

/-! ## Adaptive rate limiter (`middleware/ratelimit.go` lines 215–246)

`rate.Limit` is a `float64`; the arithmetic is idealised over `ℚ`. -/

/-- `AdaptiveRateLimiter.AdjustRate`: the new value of `currentRate`
given the base rate, the current rate and the load factor. -/
def adjustRate (baseRate currentRate loadFactor : ℚ) : ℚ :=
  if loadFactor < 1/2 then
    let newRate := currentRate * (12/10)
    if newRate > baseRate * 2 then baseRate * 2 else newRate
  else if loadFactor > 8/10 then
    let newRate := currentRate * (8/10)
    if newRate < baseRate * (1/2) then baseRate * (1/2) else newRate
  else
    if currentRate > baseRate then currentRate * (95/100)
    else if currentRate < baseRate then currentRate * (105/100)
    else currentRate


/-! ## Cache key generation (`pkg/cache`, key generator)

`DefaultKeyGenerator.GenerateKey` serialises the request (`json.Marshal`,
modelled as an abstract fallible serialiser), hashes the bytes with
SHA-256 (`crypto/sha256`, implemented below over byte lists, FIPS
180-4), hex-encodes the digest in lowercase (`encoding/hex`), and
returns `method ++ ":" ++ hex`.  Bytes are naturals below 256; 32-bit
words are naturals reduced modulo `2^32`. -/

/-- Right rotation of a 32-bit word. -/
def rotr32 (n x : ℕ) : ℕ := ((x >>> n) ||| (x <<< (32 - n))) % 4294967296

/-- The SHA-256 choice function. -/
def shaCh (x y z : ℕ) : ℕ := (x &&& y) ^^^ ((x ^^^ 4294967295) &&& z)

/-- The SHA-256 majority function. -/
def shaMaj (x y z : ℕ) : ℕ := (x &&& y) ^^^ (x &&& z) ^^^ (y &&& z)

/-- The SHA-256 Σ₀ compression function. -/
def bigSigma0 (x : ℕ) : ℕ := rotr32 2 x ^^^ rotr32 13 x ^^^ rotr32 22 x

/-- The SHA-256 Σ₁ compression function. -/
def bigSigma1 (x : ℕ) : ℕ := rotr32 6 x ^^^ rotr32 11 x ^^^ rotr32 25 x

/-- The SHA-256 σ₀ message schedule function. -/
def smallSigma0 (x : ℕ) : ℕ := rotr32 7 x ^^^ rotr32 18 x ^^^ (x >>> 3)

/-- The SHA-256 σ₁ message schedule function. -/
def smallSigma1 (x : ℕ) : ℕ := rotr32 17 x ^^^ rotr32 19 x ^^^ (x >>> 10)

/-- The 64 SHA-256 round constants (FIPS 180-4, written in decimal). -/
def shaK : List ℕ :=
  [1116352408, 1899447441, 3049323471,
   3921009573, 961987163, 1508970993,
   2453635748, 2870763221, 3624381080,
   310598401, 607225278, 1426881987,
   1925078388, 2162078206, 2614888103,
   3248222580, 3835390401, 4022224774,
   264347078, 604807628, 770255983,
   1249150122, 1555081692, 1996064986,
   2554220882, 2821834349, 2952996808,
   3210313671, 3336571891, 3584528711,
   113926993, 338241895, 666307205,
   773529912, 1294757372, 1396182291,
   1695183700, 1986661051, 2177026350,
   2456956037, 2730485921, 2820302411,
   3259730800, 3345764771, 3516065817,
   3600352804, 4094571909, 275423344,
   430227734, 506948616, 659060556,
   883997877, 958139571, 1322822218,
   1537002063, 1747873779, 1955562222,
   2024104815, 2227730452, 2361852424,
   2428436474, 2756734187, 3204031479,
   3329325298]

/-- The eight 32-bit words of the running hash. -/
structure Hash8 where
  a : ℕ
  b : ℕ
  c : ℕ
  d : ℕ
  e : ℕ
  f : ℕ
  g : ℕ
  h : ℕ
  deriving Repr, DecidableEq

/-- The SHA-256 initial hash value (FIPS 180-4, written in decimal). -/
def shaH0 : Hash8 :=
  ⟨1779033703, 3144134277, 1013904242, 2773480762,
    1359893119, 2600822924, 528734635, 1541459225⟩

/-- Big-endian grouping of bytes into 32-bit words. -/
def toWords : List ℕ → List ℕ
  | b0 :: b1 :: b2 :: b3 :: rest =>
      (((b0 * 256 + b1) * 256 + b2) * 256 + b3) :: toWords rest
  | _ => []

/-- The eight big-endian bytes of a 64-bit length field. -/
def bigEndian8 (n : ℕ) : List ℕ :=
  [(n >>> 56) % 256, (n >>> 48) % 256, (n >>> 40) % 256, (n >>> 32) % 256,
   (n >>> 24) % 256, (n >>> 16) % 256, (n >>> 8) % 256, n % 256]

/-- The four big-endian bytes of a 32-bit word. -/
def bigEndian4 (n : ℕ) : List ℕ :=
  [(n >>> 24) % 256, (n >>> 16) % 256, (n >>> 8) % 256, n % 256]

/-- SHA-256 message padding: a 0x80 byte, zeros to 56 mod 64, then the
64-bit big-endian bit length. -/
def shaPad (msg : List ℕ) : List ℕ :=
  msg ++ 128 :: List.replicate ((119 - (msg.length % 64)) % 64) 0
    ++ bigEndian8 (msg.length * 8)

/-- Extension of the 16-word message schedule by `n` further words
(`w[t] = σ₁(w[t−2]) + w[t−7] + σ₀(w[t−15]) + w[t−16] mod 2³²`). -/
def extendSchedule : List ℕ → ℕ → List ℕ
  | w, 0 => w
  | w, n + 1 =>
      let ℓ := w.length
      let next := (smallSigma1 (w.getD (ℓ - 2) 0) + w.getD (ℓ - 7) 0
        + smallSigma0 (w.getD (ℓ - 15) 0) + w.getD (ℓ - 16) 0) % 4294967296
      extendSchedule (w ++ [next]) n

/-- One SHA-256 compression round. -/
def compressRound (st : Hash8) (k w : ℕ) : Hash8 :=
  let t1 := (st.h + bigSigma1 st.e + shaCh st.e st.f st.g + k + w) % 4294967296
  let t2 := (bigSigma0 st.a + shaMaj st.a st.b st.c) % 4294967296
  ⟨(t1 + t2) % 4294967296, st.a, st.b, st.c, (st.d + t1) % 4294967296,
    st.e, st.f, st.g⟩

/-- Process one 64-byte block: run the 64 rounds over the extended
schedule and add the result into the running hash. -/
def processBlock (h : Hash8) (block : List ℕ) : Hash8 :=
  let w := extendSchedule (toWords block) 48
  let st := (shaK.zip w).foldl (fun st kw => compressRound st kw.1 kw.2) h
  ⟨(h.a + st.a) % 4294967296, (h.b + st.b) % 4294967296,
   (h.c + st.c) % 4294967296, (h.d + st.d) % 4294967296,
   (h.e + st.e) % 4294967296, (h.f + st.f) % 4294967296,
   (h.g + st.g) % 4294967296, (h.h + st.h) % 4294967296⟩

/-- Process the given number of leading 64-byte blocks. -/
def processBlocksAux (h : Hash8) (l : List ℕ) : ℕ → Hash8
  | 0 => h
  | n + 1 => processBlocksAux (processBlock h (l.take 64)) (l.drop 64) n

/-- SHA-256 of a byte list: pad, compress all blocks, serialise the
final hash big-endian. -/
def sha256 (msg : List ℕ) : List ℕ :=
  let padded := shaPad msg
  let hf := processBlocksAux shaH0 padded (padded.length / 64)
  bigEndian4 hf.a ++ bigEndian4 hf.b ++ bigEndian4 hf.c ++ bigEndian4 hf.d
    ++ bigEndian4 hf.e ++ bigEndian4 hf.f ++ bigEndian4 hf.g ++ bigEndian4 hf.h

/-- One lowercase hexadecimal digit (`encoding/hex` uses the alphabet
`0123456789abcdef`). -/
def hexDigit (n : ℕ) : Char :=
  if n < 10 then Char.ofNat (48 + n) else Char.ofNat (87 + n)

/-- `hex.EncodeToString`: two lowercase hex digits per byte, high nibble
first. -/
def hexEncode (bytes : List ℕ) : String :=
  String.mk (bytes.bind (fun b => [hexDigit (b / 16), hexDigit (b % 16)]))

/-- `DefaultKeyGenerator.GenerateKey`: serialise the request (failure
aborts with the error), hash, hex-encode, and join as
`method ++ ":" ++ hex` (`fmt.Sprintf("%s:%s", …)`). -/
def generateKey {ρ : Type} (serialize : ρ → Option (List ℕ))
    (method : String) (req : ρ) : Option String :=
  match serialize req with
  | none => none
  | some reqBytes => some (method ++ ":" ++ hexEncode (sha256 reqBytes))

end Guardian

namespace Guardian

theorem chainUnaryServer_eq_composeSpec {γ ρ ι α : Type}
    (ms : List (Middleware γ ρ ι α)) (ctx : γ) (req : ρ) (info : ι)
    (h : Handler γ ρ α) :
    chainUnaryServer ms ctx req info h = composeSpec info ms h ctx req := by
  suffices hs : ms.reverse.foldl (fun acc m => wrapStep info acc m) h
      = composeSpec info ms h by
    simp [chainUnaryServer, hs]
  rw [List.foldl_reverse]
  induction ms with
  | nil => rfl
  | cons m ms ih =>
      simp only [List.foldr_cons, composeSpec, ih]
      rfl

theorem retryOption_apply_inv (r : Retry) (o : RetryOption)
    (hr : 1 ≤ r.maxAttempts ∧ 0 < r.initialBackoff ∧ 0 < r.maxBackoff
      ∧ 1 < r.backoffMultiplier) :
    1 ≤ (RetryOption.apply r o).maxAttempts
      ∧ 0 < (RetryOption.apply r o).initialBackoff
      ∧ 0 < (RetryOption.apply r o).maxBackoff
      ∧ 1 < (RetryOption.apply r o).backoffMultiplier := by
  obtain ⟨h1, h2, h3, h4⟩ := hr
  cases o <;> simp only [RetryOption.apply] <;> (try split) <;>
    refine ⟨?_, ?_, ?_, ?_⟩ <;> first | assumption | omega

theorem newRetry_foldl_inv (opts : List RetryOption) :
    ∀ r : Retry,
      (1 ≤ r.maxAttempts ∧ 0 < r.initialBackoff ∧ 0 < r.maxBackoff
        ∧ 1 < r.backoffMultiplier) →
      1 ≤ (opts.foldl RetryOption.apply r).maxAttempts
        ∧ 0 < (opts.foldl RetryOption.apply r).initialBackoff
        ∧ 0 < (opts.foldl RetryOption.apply r).maxBackoff
        ∧ 1 < (opts.foldl RetryOption.apply r).backoffMultiplier := by
  induction opts with
  | nil => intro r hr; simpa using hr
  | cons o opts ih =>
      intro r hr
      simpa using ih (RetryOption.apply r o) (retryOption_apply_inv r o hr)

/-- Claim C10: for every sequence of retry options (including invalid
attempt counts, durations or multipliers) `NewRetry` yields a
configuration with `maxAttempts ≥ 1`, `initialBackoff > 0`,
`maxBackoff > 0` and `backoffMultiplier > 1`; an out-of-range value in a
single option is ignored so the corresponding default (3 attempts,
100 ms, 10 s, 2.0) is retained, and construction is total — it never
reports an error. -/
theorem newRetry_invariant_defaults (opts : List RetryOption) :
    (1 ≤ (newRetry opts).maxAttempts
      ∧ 0 < (newRetry opts).initialBackoff
      ∧ 0 < (newRetry opts).maxBackoff
      ∧ 1 < (newRetry opts).backoffMultiplier)
    ∧ (∀ n : ℤ, n ≤ 0 → (newRetry [.withMaxAttempts n]).maxAttempts = 3)
    ∧ (∀ d : ℤ, d ≤ 0 →
        (newRetry [.withInitialBackoff d]).initialBackoff = 100 * 1000000)
    ∧ (∀ d : ℤ, d ≤ 0 →
        (newRetry [.withMaxBackoff d]).maxBackoff = 10 * 1000000000)
    ∧ (∀ m : ℚ, m ≤ 1 →
        (newRetry [.withBackoffMultiplier m]).backoffMultiplier = 2) := by
  refine ⟨?_, ?_, ?_, ?_, ?_⟩
  · exact newRetry_foldl_inv opts _ (by refine ⟨?_, ?_, ?_, ?_⟩ <;> norm_num)
  · intro n hn
    simp only [newRetry, List.foldl, RetryOption.apply]
    rw [if_neg (by omega)]
  · intro d hd
    simp only [newRetry, List.foldl, RetryOption.apply]
    rw [if_neg (by omega)]
  · intro d hd
    simp only [newRetry, List.foldl, RetryOption.apply]
    rw [if_neg (by omega)]
  · intro m hm
    simp only [newRetry, List.foldl, RetryOption.apply]
    rw [if_neg (not_lt.mpr hm)]

theorem newRetry_invariant_defaults_witness :
    1 ≤ (newRetry [.withMaxAttempts (-5)]).maxAttempts
      ∧ (newRetry [.withMaxAttempts (-5)]).maxAttempts = 3 :=
  ⟨(newRetry_invariant_defaults [.withMaxAttempts (-5)]).1.1,
    (newRetry_invariant_defaults []).2.1 (-5) (by norm_num)⟩

theorem calcBackoffF_eq_min (r : Retry) (rand : ℚ) (i : ℕ)
    (hj : r.jitter = false) :
    r.calculateBackoffF rand i
      = min (r.maxBackoff : ℚ)
          ((r.initialBackoff : ℚ) * r.backoffMultiplier ^ (i - 1)) := by
  simp only [Retry.calculateBackoffF, hj, Bool.false_eq_true, if_false]
  rcases le_or_lt ((r.initialBackoff : ℚ) * r.backoffMultiplier ^ (i - 1))
      (r.maxBackoff : ℚ) with hle | hlt
  · rw [if_neg (not_lt.mpr hle), min_eq_right hle]
  · rw [if_pos hlt, min_eq_left hlt.le]

/-- Claim C4: with jitter disabled, the backoff computed for attempt
`i ≥ 1` (the `float64` value, idealised over `ℚ`; the returned
`time.Duration` is its floor) equals
`min(maxBackoff, initialBackoff · multiplier^(i−1))`; consequently
`backoff(i+1) = min(maxBackoff, backoff(i) · multiplier)` and the
sequence is monotonically non-decreasing. -/
theorem retry_backoff_closed_form_and_monotone (r : Retry) (rand : ℚ)
    (i : ℕ) (hj : r.jitter = false) (hi : 1 ≤ i)
    (hinit : 0 ≤ r.initialBackoff) (hmax : 0 ≤ r.maxBackoff)
    (hmul : 1 ≤ r.backoffMultiplier) :
    r.calculateBackoffF rand i
        = min (r.maxBackoff : ℚ)
            ((r.initialBackoff : ℚ) * r.backoffMultiplier ^ (i - 1))
      ∧ r.calculateBackoffF rand (i + 1)
        = min (r.maxBackoff : ℚ) (r.calculateBackoffF rand i * r.backoffMultiplier)
      ∧ r.calculateBackoffF rand i ≤ r.calculateBackoffF rand (i + 1)
      ∧ r.calculateBackoff rand i = ⌊r.calculateBackoffF rand i⌋ := by
  have hmax' : (0 : ℚ) ≤ (r.maxBackoff : ℚ) := by exact_mod_cast hmax
  have hinit' : (0 : ℚ) ≤ (r.initialBackoff : ℚ) := by exact_mod_cast hinit
  have hm0 : (0 : ℚ) ≤ r.backoffMultiplier := le_trans zero_le_one hmul
  have hpow : ∀ k : ℕ, (0 : ℚ) ≤ r.backoffMultiplier ^ k :=
    fun k => pow_nonneg hm0 k
  have hei : i + 1 - 1 = (i - 1) + 1 := by omega
  have hclosed := calcBackoffF_eq_min r rand i hj
  have hclosed' := calcBackoffF_eq_min r rand (i + 1) hj
  have hrec : r.calculateBackoffF rand (i + 1)
      = min (r.maxBackoff : ℚ) (r.calculateBackoffF rand i * r.backoffMultiplier) := by
    rw [hclosed, hclosed', hei, pow_succ, min_mul_of_nonneg _ _ hm0, ← min_assoc,
      min_eq_left (le_mul_of_one_le_right hmax' hmul), mul_assoc]
  refine ⟨hclosed, hrec, ?_, ?_⟩
  · rw [hclosed, hclosed', hei]
    refine min_le_min le_rfl ?_
    refine mul_le_mul_of_nonneg_left ?_ hinit'
    calc r.backoffMultiplier ^ (i - 1)
        = r.backoffMultiplier ^ (i - 1) * 1 := by ring
      _ ≤ r.backoffMultiplier ^ (i - 1) * r.backoffMultiplier :=
          mul_le_mul_of_nonneg_left hmul (hpow (i - 1))
      _ = r.backoffMultiplier ^ ((i - 1) + 1) := by rw [pow_succ]
  · have hnn : 0 ≤ r.calculateBackoffF rand i := by
      rw [hclosed]
      exact le_min hmax' (mul_nonneg hinit' (hpow (i - 1)))
    rw [Retry.calculateBackoff, truncQ, if_neg (not_lt.mpr hnn)]

theorem retry_backoff_witness :
    (newRetry [.withJitter false]).calculateBackoffF 0 2
        = min (((newRetry [.withJitter false]).maxBackoff : ℚ))
            (((newRetry [.withJitter false]).initialBackoff : ℚ)
              * (newRetry [.withJitter false]).backoffMultiplier ^ (2 - 1)) :=
  (retry_backoff_closed_form_and_monotone (newRetry [.withJitter false]) 0 2
    rfl (by norm_num) (by norm_num [newRetry, RetryOption.apply])
    (by norm_num [newRetry, RetryOption.apply])
    (by norm_num [newRetry, RetryOption.apply])).1

theorem retryAux_spec {α : Type} (r : Retry) (h : ℕ → Option α × Option GoErr)
    (cB cS : ℕ → Option GoErr) (hB : ∀ a, cB a = none) (hS : ∀ a, cS a = none) :
    ∀ (fuel attempt : ℕ) (resp0 : Option α) (err0 : Option GoErr),
      (retryAux r h cB cS attempt fuel resp0 err0).calls ≤ fuel
      ∧ (1 ≤ fuel → 1 ≤ (retryAux r h cB cS attempt fuel resp0 err0).calls)
      ∧ ((retryAux r h cB cS attempt fuel resp0 err0).calls = 0 →
          retryAux r h cB cS attempt fuel resp0 err0 = ⟨resp0, err0, 0⟩)
      ∧ (∀ j, j + 1 < (retryAux r h cB cS attempt fuel resp0 err0).calls →
          ∃ e, (h (attempt + j)).2 = some e ∧ r.isRetryable e = true)
      ∧ (1 ≤ (retryAux r h cB cS attempt fuel resp0 err0).calls →
          (retryAux r h cB cS attempt fuel resp0 err0).resp
              = (h (attempt + ((retryAux r h cB cS attempt fuel resp0 err0).calls - 1))).1
            ∧ (retryAux r h cB cS attempt fuel resp0 err0).err
              = (h (attempt + ((retryAux r h cB cS attempt fuel resp0 err0).calls - 1))).2) := by
  intro fuel
  induction fuel with
  | zero =>
      intro attempt resp0 err0
      simp [retryAux]
  | succ fuel ih =>
      intro attempt resp0 err0
      rcases hha : h attempt with ⟨resp', err'⟩
      rcases err' with _ | e
      · -- success on this attempt: one call, return the handler's result
        have hfull : retryAux r h cB cS attempt (fuel + 1) resp0 err0
            = ⟨resp', none, 1⟩ := by
          simp [retryAux, hB, hha]
        rw [hfull]
        refine ⟨by show (1 : ℕ) ≤ fuel + 1; omega, fun _ => le_rfl,
          fun hc => absurd (show (1 : ℕ) = 0 from hc) (by omega),
          fun j hj => absurd (show j + 1 < 1 from hj) (by omega), ?_⟩
        intro _
        simp [hha]
      · cases hre : r.isRetryable e with
        | false =>
          -- non-retryable error: one call, return it verbatim
          have hfull : retryAux r h cB cS attempt (fuel + 1) resp0 err0
              = ⟨resp', some e, 1⟩ := by
            simp [retryAux, hB, hha, hre]
          rw [hfull]
          refine ⟨by show (1 : ℕ) ≤ fuel + 1; omega, fun _ => le_rfl,
            fun hc => absurd (show (1 : ℕ) = 0 from hc) (by omega),
            fun j hj => absurd (show j + 1 < 1 from hj) (by omega), ?_⟩
          intro _
          simp [hha]
        | true =>
          by_cases hat : r.maxAttempts ≤ (attempt : ℤ)
          · -- retryable error on the final permitted attempt: break, return it
            have hfull : retryAux r h cB cS attempt (fuel + 1) resp0 err0
                = ⟨resp', some e, 1⟩ := by
              simp [retryAux, hB, hha, hre, hat]
            rw [hfull]
            refine ⟨by show (1 : ℕ) ≤ fuel + 1; omega, fun _ => le_rfl,
              fun hc => absurd (show (1 : ℕ) = 0 from hc) (by omega),
              fun j hj => absurd (show j + 1 < 1 from hj) (by omega), ?_⟩
            intro _
            simp [hha]
          · -- retryable error with attempts left: sleep and recurse
            have hfull : retryAux r h cB cS attempt (fuel + 1) resp0 err0
                = ⟨(retryAux r h cB cS (attempt + 1) fuel resp' (some e)).resp,
                    (retryAux r h cB cS (attempt + 1) fuel resp' (some e)).err,
                    (retryAux r h cB cS (attempt + 1) fuel resp' (some e)).calls + 1⟩ := by
              simp [retryAux, hB, hS, hha, hre, hat]
            rw [hfull]
            obtain ⟨ih1, ih2, ih3, ih4, ih5⟩ := ih (attempt + 1) resp' (some e)
            refine ⟨?_, ?_, ?_, ?_, ?_⟩
            · show (retryAux r h cB cS (attempt + 1) fuel resp' (some e)).calls + 1 ≤ fuel + 1
              omega
            · intro _
              show 1 ≤ (retryAux r h cB cS (attempt + 1) fuel resp' (some e)).calls + 1
              omega
            · intro hc
              exact absurd
                (show (retryAux r h cB cS (attempt + 1) fuel resp' (some e)).calls + 1 = 0 from hc)
                (by omega)
            · intro j hj
              have hj' : j + 1 < (retryAux r h cB cS (attempt + 1) fuel resp' (some e)).calls + 1 := hj
              match j with
              | 0 => exact ⟨e, by rw [Nat.add_zero, hha], hre⟩
              | j + 1 =>
                  obtain ⟨e', he1, he2⟩ := ih4 j (by omega)
                  refine ⟨e', ?_, he2⟩
                  rw [show attempt + (j + 1) = attempt + 1 + j by omega]
                  exact he1
            · intro _
              by_cases hc0 : (retryAux r h cB cS (attempt + 1) fuel resp' (some e)).calls = 0
              · have hz := ih3 hc0
                show (retryAux r h cB cS (attempt + 1) fuel resp' (some e)).resp
                    = (h (attempt + ((retryAux r h cB cS (attempt + 1) fuel resp' (some e)).calls + 1 - 1))).1
                  ∧ (retryAux r h cB cS (attempt + 1) fuel resp' (some e)).err
                    = (h (attempt + ((retryAux r h cB cS (attempt + 1) fuel resp' (some e)).calls + 1 - 1))).2
                rw [hc0, hz]
                simp [hha]
              · have hc1 : 1 ≤ (retryAux r h cB cS (attempt + 1) fuel resp' (some e)).calls := by
                  omega
                obtain ⟨hr1, hr2⟩ := ih5 hc1
                show (retryAux r h cB cS (attempt + 1) fuel resp' (some e)).resp
                    = (h (attempt + ((retryAux r h cB cS (attempt + 1) fuel resp' (some e)).calls + 1 - 1))).1
                  ∧ (retryAux r h cB cS (attempt + 1) fuel resp' (some e)).err
                    = (h (attempt + ((retryAux r h cB cS (attempt + 1) fuel resp' (some e)).calls + 1 - 1))).2
                rw [hr1, hr2]
                rw [show attempt + ((retryAux r h cB cS (attempt + 1) fuel resp' (some e)).calls + 1 - 1)
                    = attempt + 1 + ((retryAux r h cB cS (attempt + 1) fuel resp' (some e)).calls - 1) by omega]
                exact ⟨rfl, rfl⟩

theorem currentState_closed_noreset (cb : CircuitBreaker) (now : ℤ)
    (hs : cb.state = .closed) (hnr : noIntervalReset cb now) :
    currentState cb now = (cb, .closed, cb.generation) := by
  have hcond : ¬(0 < cb.interval ∧ cb.interval < now - cb.stateChangedAt) := by
    intro hc
    exact hnr ⟨hs, hc.1, hc.2⟩
  simp [currentState, hs, if_neg hcond]

theorem currentState_halfOpen (cb : CircuitBreaker) (now : ℤ)
    (hs : cb.state = .halfOpen) :
    currentState cb now = (cb, .halfOpen, cb.generation) := by
  simp [currentState, hs]

theorem currentState_open_early (cb : CircuitBreaker) (now : ℤ)
    (hs : cb.state = .opened) (ht : now - cb.stateChangedAt < cb.timeout) :
    currentState cb now = (cb, .opened, cb.generation) := by
  simp [currentState, hs, if_neg (not_le.mpr ht)]

theorem setState_of_ne (cb : CircuitBreaker) (ns : BState) (now : ℤ)
    (h : ¬(cb.state = ns)) :
    setState cb ns now
      = { cb with
          state := ns
          stateChangedAt := now
          generation := cb.generation + 1
          counts := ⟨0, 0, 0, 0, 0⟩
          halfOpenRequests := if ns = .halfOpen then 0 else cb.halfOpenRequests } := by
  simp only [setState, if_neg h, resetCounts]
  by_cases hns : ns = BState.halfOpen
  · rw [if_pos hns, if_pos hns]
  · rw [if_neg hns, if_neg hns]

theorem currentState_open_expired (cb : CircuitBreaker) (now : ℤ)
    (hs : cb.state = .opened) (ht : cb.timeout ≤ now - cb.stateChangedAt) :
    currentState cb now
      = ({ cb with
            state := .halfOpen
            stateChangedAt := now
            generation := cb.generation + 1
            counts := ⟨0, 0, 0, 0, 0⟩
            halfOpenRequests := 0 },
          .halfOpen, cb.generation + 1) := by
  have hset := setState_of_ne cb .halfOpen now (by rw [hs]; simp)
  simp [currentState, hs, if_pos ht, hset]

/-- Claim C1: while the breaker is Open and the open-timeout has not yet
elapsed, `beforeRequest` rejects with `ErrCircuitOpen` (leaving the
breaker unchanged), and the middleware returns a gRPC `Unavailable`
error whose message starts with `"circuit breaker: "` without invoking
the wrapped handler. -/
theorem breaker_open_rejects {α : Type} (cb : CircuitBreaker) (now₁ now₂ : ℤ)
    (handler : Unit → Option α × Option GoErr)
    (hs : cb.state = .opened) (ht : now₁ - cb.stateChangedAt < cb.timeout) :
    beforeRequest cb now₁ = (cb, cb.generation, some .circuitOpen)
      ∧ circuitBreakerMiddleware cb now₁ now₂ handler
          = (cb, ⟨none, some (.statusE .unavailable
              ("circuit breaker: " ++ CBErr.circuitOpen.message)), false⟩)
      ∧ (∃ m rest, (circuitBreakerMiddleware cb now₁ now₂ handler).2.err
            = some (.statusE .unavailable m)
          ∧ m = "circuit breaker: " ++ rest)
      ∧ (circuitBreakerMiddleware cb now₁ now₂ handler).2.handlerInvoked = false := by
  have hcs := currentState_open_early cb now₁ hs ht
  have hbr : beforeRequest cb now₁ = (cb, cb.generation, some .circuitOpen) := by
    simp [beforeRequest, hcs]
  have hmw : circuitBreakerMiddleware cb now₁ now₂ handler
      = (cb, ⟨none, some (.statusE .unavailable
          ("circuit breaker: " ++ CBErr.circuitOpen.message)), false⟩) := by
    simp [circuitBreakerMiddleware, hbr]
  refine ⟨hbr, hmw,
    ⟨"circuit breaker: " ++ CBErr.circuitOpen.message, CBErr.circuitOpen.message, ?_, rfl⟩, ?_⟩
  · rw [hmw]
  · rw [hmw]

theorem breaker_open_rejects_witness :
    (circuitBreakerMiddleware { newCircuitBreaker 0 with state := .opened } 0 0
        (fun _ => ((none : Option ℕ), none))).2.handlerInvoked = false :=
  (breaker_open_rejects { newCircuitBreaker 0 with state := .opened } 0 0
    (fun _ => ((none : Option ℕ), none)) rfl (by decide)).2.2.2

/-- Claim C6: a completion carrying a generation different from the
breaker's current generation is dropped — the breaker after the call is
exactly what the time-driven rules of `currentState` alone produce: no
count field absorbs the outcome and no outcome-driven transition fires. -/
theorem afterRequest_stale_dropped (cb : CircuitBreaker) (now : ℤ) (g : ℕ)
    (err : Option GoErr) (hg : g ≠ (currentState cb now).2.2) :
    afterRequest cb now g err = (currentState cb now).1 := by
  simp only [afterRequest]
  rw [if_pos hg]

theorem afterRequest_stale_dropped_witness :
    afterRequest (newCircuitBreaker 0) 0 5 none
      = (currentState (newCircuitBreaker 0) 0).1 :=
  afterRequest_stale_dropped (newCircuitBreaker 0) 0 5 none (by decide)


theorem beforeRequest_closed (cb : CircuitBreaker) (now : ℤ)
    (hs : cb.state = .closed) (hnr : noIntervalReset cb now) :
    beforeRequest cb now
      = ({ cb with counts := { cb.counts with requests := cb.counts.requests + 1 } },
          cb.generation, none) := by
  simp [beforeRequest, currentState_closed_noreset cb now hs hnr]

theorem beforeRequest_open_early (cb : CircuitBreaker) (now : ℤ)
    (hs : cb.state = .opened) (ht : now - cb.stateChangedAt < cb.timeout) :
    beforeRequest cb now = (cb, cb.generation, some .circuitOpen) := by
  simp [beforeRequest, currentState_open_early cb now hs ht]

theorem beforeRequest_halfOpen_full (cb : CircuitBreaker) (now : ℤ)
    (hs : cb.state = .halfOpen) (hm : cb.maxRequests ≤ cb.halfOpenRequests) :
    beforeRequest cb now = (cb, cb.generation, some .tooManyRequests) := by
  simp [beforeRequest, currentState_halfOpen cb now hs, hm]

theorem beforeRequest_halfOpen_admit (cb : CircuitBreaker) (now : ℤ)
    (hs : cb.state = .halfOpen) (hm : ¬(cb.maxRequests ≤ cb.halfOpenRequests)) :
    beforeRequest cb now
      = ({ cb with
            counts := { cb.counts with requests := cb.counts.requests + 1 }
            halfOpenRequests := cb.halfOpenRequests + 1 },
          cb.generation, none) := by
  simp [beforeRequest, currentState_halfOpen cb now hs, hm]

theorem beforeRequest_open_expired_full (cb : CircuitBreaker) (now : ℤ)
    (hs : cb.state = .opened) (ht : cb.timeout ≤ now - cb.stateChangedAt)
    (hm : cb.maxRequests = 0) :
    beforeRequest cb now
      = ({ cb with
            state := .halfOpen
            stateChangedAt := now
            generation := cb.generation + 1
            counts := ⟨0, 0, 0, 0, 0⟩
            halfOpenRequests := 0 },
          cb.generation + 1, some .tooManyRequests) := by
  simp [beforeRequest, currentState_open_expired cb now hs ht, hm]

theorem beforeRequest_open_expired_admit (cb : CircuitBreaker) (now : ℤ)
    (hs : cb.state = .opened) (ht : cb.timeout ≤ now - cb.stateChangedAt)
    (hm : ¬(cb.maxRequests = 0)) :
    beforeRequest cb now
      = ({ cb with
            state := .halfOpen
            stateChangedAt := now
            generation := cb.generation + 1
            counts := ⟨1, 0, 0, 0, 0⟩
            halfOpenRequests := 1 },
          cb.generation + 1, none) := by
  have hm' : ¬(cb.maxRequests ≤ 0) := by omega
  simp [beforeRequest, currentState_open_expired cb now hs ht, hm']

theorem stepBefore_inv (s : SysState) (now : ℤ) (hnr : noIntervalReset s.cb now)
    (ih : s.cb.counts.requests
      = s.cb.counts.totalSuccesses + s.cb.counts.totalFailures + s.pending) :
    (stepBefore s now).cb.counts.requests
      = (stepBefore s now).cb.counts.totalSuccesses
        + (stepBefore s now).cb.counts.totalFailures + (stepBefore s now).pending := by
  cases hstate : s.cb.state with
  | closed =>
      simp [stepBefore, beforeRequest_closed s.cb now hstate hnr]
      omega
  | opened =>
      by_cases ht : s.cb.timeout ≤ now - s.cb.stateChangedAt
      · by_cases hm : s.cb.maxRequests = 0
        · simp [stepBefore, beforeRequest_open_expired_full s.cb now hstate ht hm]
        · simp [stepBefore, beforeRequest_open_expired_admit s.cb now hstate ht hm]
      · simp [stepBefore, beforeRequest_open_early s.cb now hstate (by omega)]
        omega
  | halfOpen =>
      by_cases hm : s.cb.maxRequests ≤ s.cb.halfOpenRequests
      · simp [stepBefore, beforeRequest_halfOpen_full s.cb now hstate hm]
        omega
      · simp [stepBefore, beforeRequest_halfOpen_admit s.cb now hstate hm]
        omega

@[simp] theorem recordFailure_state (cb : CircuitBreaker) :
    (recordFailure cb).state = cb.state := rfl

@[simp] theorem recordFailure_generation (cb : CircuitBreaker) :
    (recordFailure cb).generation = cb.generation := rfl

@[simp] theorem recordFailure_successThreshold (cb : CircuitBreaker) :
    (recordFailure cb).successThreshold = cb.successThreshold := rfl

@[simp] theorem recordFailure_requests (cb : CircuitBreaker) :
    (recordFailure cb).counts.requests = cb.counts.requests := rfl

@[simp] theorem recordFailure_totalSuccesses (cb : CircuitBreaker) :
    (recordFailure cb).counts.totalSuccesses = cb.counts.totalSuccesses := rfl

@[simp] theorem recordFailure_totalFailures (cb : CircuitBreaker) :
    (recordFailure cb).counts.totalFailures = cb.counts.totalFailures + 1 := rfl

@[simp] theorem recordSuccess_state (cb : CircuitBreaker) :
    (recordSuccess cb).state = cb.state := rfl

@[simp] theorem recordSuccess_generation (cb : CircuitBreaker) :
    (recordSuccess cb).generation = cb.generation := rfl

@[simp] theorem recordSuccess_successThreshold (cb : CircuitBreaker) :
    (recordSuccess cb).successThreshold = cb.successThreshold := rfl

@[simp] theorem recordSuccess_consecutiveSuccesses (cb : CircuitBreaker) :
    (recordSuccess cb).counts.consecutiveSuccesses
      = cb.counts.consecutiveSuccesses + 1 := rfl

@[simp] theorem recordSuccess_requests (cb : CircuitBreaker) :
    (recordSuccess cb).counts.requests = cb.counts.requests := rfl

@[simp] theorem recordSuccess_totalSuccesses (cb : CircuitBreaker) :
    (recordSuccess cb).counts.totalSuccesses = cb.counts.totalSuccesses + 1 := rfl

@[simp] theorem recordSuccess_totalFailures (cb : CircuitBreaker) :
    (recordSuccess cb).counts.totalFailures = cb.counts.totalFailures := rfl

theorem afterRequest_match (cb : CircuitBreaker) (now : ℤ) (err : Option GoErr)
    (st : BState) (hcs : currentState cb now = (cb, st, cb.generation)) :
    afterRequest cb now cb.generation err
      = if cb.isFailure err then
          if st = .halfOpen then setState (recordFailure cb) .opened now
          else if st = .closed ∧ shouldOpen (recordFailure cb) = true then
            setState (recordFailure cb) .opened now
          else recordFailure cb
        else
          if st = .halfOpen ∧ (recordSuccess cb).successThreshold
              ≤ (recordSuccess cb).counts.consecutiveSuccesses then
            setState (recordSuccess cb) .closed now
          else recordSuccess cb := by
  simp [afterRequest, hcs]

theorem stepAfter_tok_inv (s : SysState) (now : ℤ) (err : Option GoErr)
    (hnr : noIntervalReset s.cb now) (hp : 1 ≤ s.pending)
    (ih : s.cb.counts.requests
      = s.cb.counts.totalSuccesses + s.cb.counts.totalFailures + s.pending) :
    (stepAfter s now s.cb.generation err).cb.counts.requests
      = (stepAfter s now s.cb.generation err).cb.counts.totalSuccesses
        + (stepAfter s now s.cb.generation err).cb.counts.totalFailures
        + (stepAfter s now s.cb.generation err).pending := by
  cases hstate : s.cb.state with
  | closed =>
      have har := afterRequest_match s.cb now err .closed
        (currentState_closed_noreset s.cb now hstate hnr)
      cases hfail : s.cb.isFailure err with
      | true =>
          by_cases hso : shouldOpen (recordFailure s.cb) = true
          · have hset := setState_of_ne (recordFailure s.cb) .opened now
              (by simp [recordFailure, hstate])
            simp [stepAfter, har, hfail, hso, hset]
          · simp [stepAfter, har, hfail, hso]
            omega
      | false =>
          simp [stepAfter, har, hfail]
          omega
  | opened =>
      by_cases ht : s.cb.timeout ≤ now - s.cb.stateChangedAt
      · have hcs := currentState_open_expired s.cb now hstate ht
        have hdrop := afterRequest_stale_dropped s.cb now s.cb.generation err
          (by rw [hcs]; simp)
        simp [stepAfter, hdrop, hcs]
      · have har := afterRequest_match s.cb now err .opened
          (currentState_open_early s.cb now hstate (by omega))
        cases hfail : s.cb.isFailure err with
        | true =>
            simp [stepAfter, har, hfail]
            omega
        | false =>
            simp [stepAfter, har, hfail]
            omega
  | halfOpen =>
      have har := afterRequest_match s.cb now err .halfOpen
        (currentState_halfOpen s.cb now hstate)
      cases hfail : s.cb.isFailure err with
      | true =>
          have hset := setState_of_ne (recordFailure s.cb) .opened now
            (by simp [recordFailure, hstate])
          simp [stepAfter, har, hfail, hset]
      | false =>
          by_cases hth : s.cb.successThreshold ≤ s.cb.counts.consecutiveSuccesses + 1
          · have hset := setState_of_ne (recordSuccess s.cb) .closed now
              (by simp [recordSuccess, hstate])
            simp [stepAfter, har, hfail, hth, hset]
          · simp [stepAfter, har, hfail, hth]
            omega

theorem stepAfter_stale_inv (s : SysState) (now : ℤ) (g : ℕ) (err : Option GoErr)
    (hnr : noIntervalReset s.cb now) (hg : g ≠ s.cb.generation)
    (hg' : g ≠ (currentState s.cb now).2.2)
    (ih : s.cb.counts.requests
      = s.cb.counts.totalSuccesses + s.cb.counts.totalFailures + s.pending) :
    (stepAfter s now g err).cb.counts.requests
      = (stepAfter s now g err).cb.counts.totalSuccesses
        + (stepAfter s now g err).cb.counts.totalFailures
        + (stepAfter s now g err).pending := by
  have hdrop := afterRequest_stale_dropped s.cb now g err hg'
  cases hstate : s.cb.state with
  | closed =>
      have hcs := currentState_closed_noreset s.cb now hstate hnr
      simp [stepAfter, hdrop, hcs, hg]
      omega
  | opened =>
      by_cases ht : s.cb.timeout ≤ now - s.cb.stateChangedAt
      · have hcs := currentState_open_expired s.cb now hstate ht
        simp [stepAfter, hdrop, hcs]
      · have hcs := currentState_open_early s.cb now hstate (by omega)
        simp [stepAfter, hdrop, hcs, hg]
        omega
  | halfOpen =>
      have hcs := currentState_halfOpen s.cb now hstate
      simp [stepAfter, hdrop, hcs, hg]
      omega

/-- Claim C5 counterexample: the claimed equation
`requests = successes + failures` fails in a state reachable inside one
generation — after a single admission on a fresh default breaker the
counts are `(requests 1, successes 0, failures 0)`. -/
theorem breaker_counts_equation_ctrex :
    (beforeRequest (newCircuitBreaker 0) 0).1.counts.requests = 1
      ∧ (beforeRequest (newCircuitBreaker 0) 0).1.counts.totalSuccesses = 0
      ∧ (beforeRequest (newCircuitBreaker 0) 0).1.counts.totalFailures = 0
      ∧ ¬((beforeRequest (newCircuitBreaker 0) 0).1.counts.requests
          = (beforeRequest (newCircuitBreaker 0) 0).1.counts.totalSuccesses
            + (beforeRequest (newCircuitBreaker 0) 0).1.counts.totalFailures) := by
  refine ⟨?_, ?_, ?_, ?_⟩ <;> decide

/-- Claim C5 (amended): within a generation `Requests` counts admissions
while `TotalSuccesses`/`TotalFailures` count completions, so in every
state reachable by matched interleavings of `beforeRequest` /
`afterRequest` in which the Closed-state interval reset does not fire,
`requests = successes + failures + pending` where `pending` is the number
of admitted calls of the current generation not yet recorded; the claimed
equation `requests = successes + failures` holds exactly when no
admission is outstanding. -/
theorem breaker_generation_accounting (s : SysState) (h : Reach s) :
    s.cb.counts.requests
        = s.cb.counts.totalSuccesses + s.cb.counts.totalFailures + s.pending
      ∧ (s.pending = 0 →
          s.cb.counts.requests
            = s.cb.counts.totalSuccesses + s.cb.counts.totalFailures) := by
  have hmain : s.cb.counts.requests
      = s.cb.counts.totalSuccesses + s.cb.counts.totalFailures + s.pending := by
    induction h with
    | init now => rfl
    | before s now hr hnr ih => exact stepBefore_inv s now hnr ih
    | afterTok s now err hr hnr hp ih => exact stepAfter_tok_inv s now err hnr hp ih
    | afterStale s now g err hr hnr hg hgp ih =>
        exact stepAfter_stale_inv s now g err hnr hg hgp ih
  exact ⟨hmain, fun hp0 => by omega⟩

theorem breaker_generation_accounting_witness :
    (stepBefore ⟨newCircuitBreaker 0, 0⟩ 0).cb.counts.requests
      = (stepBefore ⟨newCircuitBreaker 0, 0⟩ 0).cb.counts.totalSuccesses
        + (stepBefore ⟨newCircuitBreaker 0, 0⟩ 0).cb.counts.totalFailures
        + (stepBefore ⟨newCircuitBreaker 0, 0⟩ 0).pending :=
  (breaker_generation_accounting (stepBefore ⟨newCircuitBreaker 0, 0⟩ 0)
    (Reach.before ⟨newCircuitBreaker 0, 0⟩ 0 (Reach.init 0)
      (by unfold noIntervalReset; decide))).1


/-- Claim C3: with the ambient context never cancelled, the server-side
retry interceptor invokes the handler at most `maxAttempts` times and at
least once; every attempt before the last one failed with a retryable
error (so the loop stops at the first success or the first error whose
code is outside the retryable set); the `(resp, error)` pair of the last
attempt is returned verbatim; an error that is not an RPC status error
is never retryable; and the default retryable set is exactly
{Unavailable, ResourceExhausted, Aborted, DeadlineExceeded}. -/
theorem retry_stops_and_returns_last_error {α : Type} (r : Retry)
    (h : ℕ → Option α × Option GoErr) (cB cS : ℕ → Option GoErr)
    (hmax : 1 ≤ r.maxAttempts) (hB : ∀ a, cB a = none) (hS : ∀ a, cS a = none) :
    (((retryRun r h cB cS).calls : ℤ) ≤ r.maxAttempts
        ∧ 1 ≤ (retryRun r h cB cS).calls)
      ∧ (∀ k, 1 ≤ k → k < (retryRun r h cB cS).calls →
          ∃ e, (h k).2 = some e ∧ r.isRetryable e = true)
      ∧ ((retryRun r h cB cS).resp = (h (retryRun r h cB cS).calls).1
          ∧ (retryRun r h cB cS).err = (h (retryRun r h cB cS).calls).2)
      ∧ (∀ msg, r.isRetryable (.plainE msg) = false)
      ∧ (newRetry []).retryableErrors
          = [.unavailable, .resourceExhausted, .aborted, .deadlineExceeded] := by
  simp only [retryRun]
  obtain ⟨h1, h2, h3, h4, h5⟩ :=
    retryAux_spec r h cB cS hB hS r.maxAttempts.toNat 1 none none
  have hfuel : 1 ≤ r.maxAttempts.toNat := by omega
  have hcalls : 1 ≤ (retryAux r h cB cS 1 r.maxAttempts.toNat none none).calls := h2 hfuel
  have hle : (((retryAux r h cB cS 1 r.maxAttempts.toNat none none).calls : ℤ))
      ≤ r.maxAttempts := by omega
  obtain ⟨hre, her⟩ := h5 hcalls
  refine ⟨⟨hle, hcalls⟩, ?_, ⟨?_, ?_⟩, fun msg => rfl, rfl⟩
  · intro k hk1 hk2
    obtain ⟨e, he1, he2⟩ := h4 (k - 1) (by omega)
    rw [show 1 + (k - 1) = k by omega] at he1
    exact ⟨e, he1, he2⟩
  · rw [hre, show 1 + ((retryAux r h cB cS 1 r.maxAttempts.toNat none none).calls - 1)
        = (retryAux r h cB cS 1 r.maxAttempts.toNat none none).calls by omega]
  · rw [her, show 1 + ((retryAux r h cB cS 1 r.maxAttempts.toNat none none).calls - 1)
        = (retryAux r h cB cS 1 r.maxAttempts.toNat none none).calls by omega]

theorem retry_stops_witness :
    (((retryRun (newRetry [])
        (fun a => if a = 1 then ((none : Option ℕ), some (GoErr.statusE .unavailable "u"))
          else (some 7, none))
        (fun _ => none) (fun _ => none)).calls : ℤ) ≤ (newRetry []).maxAttempts)
      ∧ 1 ≤ (retryRun (newRetry [])
          (fun a => if a = 1 then ((none : Option ℕ), some (GoErr.statusE .unavailable "u"))
            else (some 7, none))
          (fun _ => none) (fun _ => none)).calls :=
  (retry_stops_and_returns_last_error (newRetry [])
    (fun a => if a = 1 then ((none : Option ℕ), some (GoErr.statusE .unavailable "u"))
      else (some 7, none))
    (fun _ => none) (fun _ => none) (by decide) (fun _ => rfl) (fun _ => rfl)).1

/-- Claim C2: the unary interceptor built from middlewares `m₁ … mₙ`
applies them nested with `m₁` outermost and `mₙ` innermost around the
final handler (`Compose(m₁,…,mₙ,h) = m₁(…, m₂(…, … mₙ(…, h)…))`), and
the interceptor built from the empty chain invokes the handler directly
with the unmodified context and request, returning its result unchanged. -/
theorem chain_compose_nested_and_identity {γ ρ ι α : Type}
    (ms : List (Middleware γ ρ ι α)) (m₁ : Middleware γ ρ ι α)
    (ctx : γ) (req : ρ) (info : ι) (h : Handler γ ρ α) :
    chainUnaryServer (m₁ :: ms) ctx req info h
        = m₁ ctx req info (composeSpec info ms h)
      ∧ chainUnaryServer [] ctx req info h = h ctx req := by
  refine ⟨?_, rfl⟩
  rw [chainUnaryServer_eq_composeSpec]
  rfl

/-- Claim C7 counterexample: with the default 10 s timeout, an explicit
ambient cancellation observed while the handler is running (the derived
deadline has not expired) makes the middleware return the
`DeadlineExceeded` status error, not the cancellation cause. -/
theorem timeout_cancellation_ctrex :
    ((timeoutRun (α := ℕ) ⟨10 * 1000000000, []⟩ "/svc/M"
          (.ctxDoneFirst .parentCanceled)).2.map GoErr.statusCode)
        = some (some Code.deadlineExceeded)
      ∧ ¬(((timeoutRun (α := ℕ) ⟨10 * 1000000000, []⟩ "/svc/M"
          (.ctxDoneFirst .parentCanceled)).2.map GoErr.statusCode)
        = some (some Code.canceled))
      ∧ (timeoutRun (α := ℕ) ⟨10 * 1000000000, []⟩ "/svc/M"
          (.ctxDoneFirst .parentCanceled)).1 = none := by
  refine ⟨rfl, ?_, rfl⟩
  intro h
  simp [timeoutRun, GoErr.statusCode] at h

/-- Claim C7 (amended): the deadline enforcer returns the handler's
result verbatim when the handler wins the race; when the derived
context's `Done` fires first it always returns the `DeadlineExceeded`
status error `"request timeout after <T>"`, regardless of whether the
context completed because the deadline expired or because the ambient
context was explicitly cancelled — an explicit cancellation observed by
the `select` is indistinguishable from a timeout. -/
theorem timeout_race_characterisation {α : Type} (cfg : TimeoutConfig)
    (method : String) (resp : Option α) (err : Option GoErr) (cause : DoneCause) :
    timeoutRun cfg method (.handlerFirst resp err) = (resp, err)
      ∧ timeoutRun (α := α) cfg method (.ctxDoneFirst cause)
        = (none, some (.statusE .deadlineExceeded
            ("request timeout after " ++ toString (cfg.resolve method))))
      ∧ timeoutRun (α := α) cfg method (.ctxDoneFirst .parentCanceled)
        = timeoutRun (α := α) cfg method (.ctxDoneFirst .deadlineExpired) :=
  ⟨rfl, rfl, rfl⟩

/-- Claim C9: `AdjustRate` multiplies the current rate by 1.2 capped at
2×base when `loadFactor < 0.5`, by 0.8 floored at 0.5×base when
`loadFactor > 0.8`, and otherwise drifts toward the base rate by 5% —
×0.95 when above base (strictly decreasing, toward base), ×1.05 when
below base (strictly increasing, toward base), unchanged when equal —
never stepping in the direction away from base. -/
theorem adaptive_adjust_rate_spec (base cur load : ℚ) (hcur : 0 < cur) :
    (load < 1/2 → adjustRate base cur load = min (cur * (12/10)) (base * 2))
      ∧ (¬(load < 1/2) → load > 8/10 →
          adjustRate base cur load = max (cur * (8/10)) (base * (1/2)))
      ∧ (¬(load < 1/2) → ¬(load > 8/10) →
          (base < cur → adjustRate base cur load = cur * (95/100)
              ∧ adjustRate base cur load < cur)
            ∧ (cur < base → adjustRate base cur load = cur * (105/100)
              ∧ cur < adjustRate base cur load)
            ∧ (cur = base → adjustRate base cur load = cur)) := by
  refine ⟨?_, ?_, ?_⟩
  · intro hl
    simp only [adjustRate, if_pos hl]
    rcases le_or_lt (cur * (12/10)) (base * 2) with h | h
    · rw [if_neg (not_lt.mpr h), min_eq_left h]
    · rw [if_pos h, min_eq_right h.le]
  · intro hl hh
    simp only [adjustRate, if_neg hl, if_pos hh]
    rcases le_or_lt (base * (1/2)) (cur * (8/10)) with h | h
    · rw [if_neg (not_lt.mpr h), max_eq_left h]
    · rw [if_pos h, max_eq_right h.le]
  · intro hl hh
    refine ⟨?_, ?_, ?_⟩
    · intro hc
      simp only [adjustRate, if_neg hl, if_neg hh, if_pos hc]
      exact ⟨by trivial, by nlinarith⟩
    · intro hc
      have hc' : ¬(cur > base) := by linarith
      simp only [adjustRate, if_neg hl, if_neg hh, if_neg hc', if_pos hc]
      exact ⟨by trivial, by nlinarith⟩
    · intro hc
      have hc1 : ¬(cur > base) := by rw [hc]; exact lt_irrefl base
      have hc2 : ¬(cur < base) := by rw [hc]; exact lt_irrefl base
      simp only [adjustRate, if_neg hl, if_neg hh, if_neg hc1, if_neg hc2]

theorem adaptive_adjust_rate_witness :
    adjustRate 100 101 (3/5) = 101 * (95/100) :=
  (((adaptive_adjust_rate_spec 100 101 (3/5) (by norm_num)).2.2
    (by norm_num) (by norm_num)).1 (by norm_num)).1


theorem bigEndian4_lt (n : ℕ) : ∀ b ∈ bigEndian4 n, b < 256 := by
  intro b hb
  simp [bigEndian4] at hb
  rcases hb with h | h | h | h <;> omega

theorem sha256_length (msg : List ℕ) : (sha256 msg).length = 32 := by
  simp [sha256, bigEndian4]

theorem sha256_bytes_lt (msg : List ℕ) : ∀ b ∈ sha256 msg, b < 256 := by
  intro b hb
  simp only [sha256, List.mem_append] at hb
  rcases hb with ((((((h | h) | h) | h) | h) | h) | h) | h <;>
    exact bigEndian4_lt _ b h

theorem hexEncode_length (bytes : List ℕ) :
    (hexEncode bytes).length = 2 * bytes.length := by
  simp only [hexEncode, String.length]
  induction bytes with
  | nil => rfl
  | cons b bs ih => simp_all [List.cons_bind]; omega

theorem hexDigit_mem (n : ℕ) (hn : n < 16) :
    hexDigit n ∈ "0123456789abcdef".data := by
  interval_cases n <;> decide

/-- Claim C8: whenever serialisation succeeds, the default cache key
generator returns exactly `method ++ ":" ++ hex(SHA-256(bytes))`; the
derivation is a pure function of `(method, serialised bytes)`, so equal
methods and equal serialisations give identical keys; the digest encoding
is 64 characters drawn from the lowercase hex alphabet. -/
theorem default_key_generator_spec {ρ : Type} (serialize : ρ → Option (List ℕ))
    (method : String) (req req' : ρ) (reqBytes : List ℕ)
    (hser : serialize req = some reqBytes)
    (heq : serialize req' = serialize req) :
    generateKey serialize method req
        = some (method ++ ":" ++ hexEncode (sha256 reqBytes))
      ∧ generateKey serialize method req' = generateKey serialize method req
      ∧ (hexEncode (sha256 reqBytes)).length = 64
      ∧ ∀ c ∈ (hexEncode (sha256 reqBytes)).data, c ∈ "0123456789abcdef".data := by
  refine ⟨by simp [generateKey, hser], by simp [generateKey, heq], ?_, ?_⟩
  · rw [hexEncode_length, sha256_length]
  · intro c hc
    simp only [hexEncode] at hc
    obtain ⟨b, hb, hcb⟩ := List.mem_bind.mp hc
    have hblt : b < 256 := sha256_bytes_lt _ b hb
    simp only [List.mem_cons, List.mem_singleton] at hcb
    rcases hcb with hcb | hcb | hcb
    · rw [hcb]; exact hexDigit_mem _ (by omega)
    · rw [hcb]; exact hexDigit_mem _ (by omega)
    · exact absurd hcb (List.not_mem_nil c)

theorem default_key_generator_witness :
    generateKey (fun (_ : Unit) => some []) "m" ()
      = some ("m" ++ ":" ++ hexEncode (sha256 [])) :=
  (default_key_generator_spec (fun (_ : Unit) => some []) "m" () () [] rfl rfl).1


end Guardian
